import Mathlib

/-!
Verification of the 2025 RWA survey reporting scripts.

The development shallowly embeds the three Python files of the repository:

* `src/data_processing.py` — column-mapping driven type coercion
  (`apply_data_types`), section `Survey.Processing` below;
* `data_analysis.py` — the batch entry script, including its own older
  copies of the helpers and the Masters-subgroup row filter;
* `src/visualization.py` — the brand-palette resolver and the three chart
  producers.

A pandas `DataFrame` is modelled as an association list from column names
to series; a series is a list of cell values together with a dtype tag.
Cell values are integers, strings, or missing (`NaN`/`NA`, modelled by
`vNull`).  Fractional numbers do not occur in any claim and are not
modelled; numeric cells are integers.  Mutation of a frame (the Python
code assigns columns in place) is modelled by threading the frame value
through explicit state-passing updates.
-/

namespace Survey

/-- A cell value of the survey table: an integer, a string, or missing
(pandas `NaN`/`NA`). -/
inductive Val where
  | vInt : Int → Val
  | vStr : String → Val
  | vNull : Val
deriving DecidableEq, Repr

/-- The dtype tag carried by a series.  `cat cats ord` is a pandas
categorical dtype with category list `cats` and ordered flag `ord`;
`intN w` is the nullable integer extension dtype of width `w` (`Int8`,
`Int16`, ...); `npint w` a plain numpy integer; `float` the float64
dtype; `obj` the object dtype of freshly loaded spreadsheet columns. -/
inductive DType where
  | obj : DType
  | cat : List Val → Bool → DType
  | intN : Nat → DType
  | npint : Nat → DType
  | float : DType
  | boolean : DType
deriving DecidableEq, Repr

/-- A pandas `Series`: the column cells in row order plus the dtype. -/
structure Series where
  data : List Val
  dtype : DType
deriving DecidableEq, Repr

/-- A pandas `DataFrame`: association list from column name to series,
in column order. -/
abbrev DF : Type := List (String × Series)

/-- `df.columns` as a list of names. -/
def colNames (df : DF) : List String := df.map Prod.fst

/-- `df[c]`: look a column up by name. -/
def lookupCol : DF → String → Option Series
  | [], _ => none
  | (n, s) :: rest, c => if n = c then some s else lookupCol rest c

/-- `df[c] = s'` for a column `c` that already exists: replace the series
in place, keeping the column position (a no-op when `c` is absent; the
code only assigns columns it has just found present). -/
def setCol : DF → String → Series → DF
  | [], _, _ => []
  | (n, s) :: rest, c, s' =>
    if n = c then (n, s') :: rest else (n, s) :: setCol rest c s'

/-! ### `src/data_processing.py`, `apply_data_types` -/

/-- The five fixed Ordered-Likert column names
(`data_processing.py` lines 37-43). -/
def orderedLikertColumns : List String :=
  ["support_1st_place_medals_masters",
   "rating_promotion_governance",
   "rating_accessibility",
   "rating_positive_experience",
   "rating_high_performance_pathways"]

/-- The fixed five-level scale, disagree to agree
(`data_processing.py` lines 45-51, `category_order`). -/
def categoryOrder : List String :=
  ["Strongly Disagree", "Disagree", "Neutral", "Agree", "Strongly Agree"]

/-- The category list of the ordered categorical dtype `cat_dtype`. -/
def catCategories : List Val := categoryOrder.map Val.vStr

/-- `Series.map(mapping)` applied to one cell, where
`mapping = {1: "Strongly Disagree", ..., 5: "Strongly Agree"}`
(`data_processing.py` line 55).  A pandas `map` with a dict argument
sends every value that is not a key of the dict — strings, missing
values, out-of-range integers — to `NaN`. -/
def likertMapVal : Val → Val
  | Val.vInt 1 => Val.vStr "Strongly Disagree"
  | Val.vInt 2 => Val.vStr "Disagree"
  | Val.vInt 3 => Val.vStr "Neutral"
  | Val.vInt 4 => Val.vStr "Agree"
  | Val.vInt 5 => Val.vStr "Strongly Agree"
  | _ => Val.vNull

/-- `astype(CategoricalDtype(cats))` applied to one cell: values outside
the category list become `NaN`; missing stays missing. -/
def astypeCatVal (cats : List Val) (v : Val) : Val :=
  match v with
  | Val.vNull => Val.vNull
  | v => if v ∈ cats then v else Val.vNull

/-- The whole Likert branch,
`df[col].map(mapping).astype(cat_dtype)` (`data_processing.py` line 63). -/
def likertCoerceSeries (s : Series) : Series :=
  ⟨s.data.map (fun v => astypeCatVal catCategories (likertMapVal v)),
   DType.cat catCategories true⟩

/-- ASCII whitespace, as skipped by the strtod-style numeric parser
underlying `pd.to_numeric`. -/
def isWS (c : Char) : Bool :=
  c == ' ' || c == Char.ofNat 9 || c == Char.ofNat 10 || c == Char.ofNat 13

/-- Strip leading and trailing whitespace. -/
def trimWS (l : List Char) : List Char :=
  ((l.dropWhile isWS).reverse.dropWhile isWS).reverse

/-- Read a nonempty all-digit run as a number; anything else fails. -/
def digitsVal (l : List Char) : Option Nat :=
  if l.isEmpty then none
  else if l.all Char.isDigit then
    some (l.foldl (fun a c => a * 10 + (c.toNat - 48)) 0)
  else none

/-- Parse a cell string the way `pd.to_numeric` does: surrounding
whitespace is skipped (the parser has strtod semantics, as Python
`float(" 3 ")` does), an optional sign is allowed, and any stray
character makes the parse fail.  Fractional literals are not modelled
(no claim involves them); integer numerals are exact. -/
def parseNumeric (s : String) : Option Int :=
  match trimWS s.toList with
  | '-' :: rest => (digitsVal rest).map (fun n => -(n : Int))
  | '+' :: rest => (digitsVal rest).map (fun n => (n : Int))
  | t => (digitsVal t).map (fun n => (n : Int))

/-- One cell under `pd.to_numeric(_, errors="coerce")`: numbers pass
through, missing stays missing, strings parse or coerce to `NaN`. -/
def toNumericVal : Val → Val
  | Val.vInt n => Val.vInt n
  | Val.vNull => Val.vNull
  | Val.vStr s =>
    match parseNumeric s with
    | some n => Val.vInt n
    | none => Val.vNull

/-- Width of a nullable-integer dtype string: `"Int8"` gives `8`, and so
on; a non-numeric suffix means `astype` would reject the dtype. -/
def parseIntWidth (dt : String) : Option Nat := digitsVal (dt.toList.drop 3)

/-- Does the pattern sit at the head of the text? -/
def hasPrefixCL : List Char → List Char → Bool
  | [], _ => true
  | _ :: _, [] => false
  | p :: ps, t :: ts => p == t && hasPrefixCL ps ts

/-- Does an integer (or missing) cell fit the signed width `w`?  The
final `astype("IntN")` raises on overflow (safe casting), which the
caller's `except` arm turns into "column unchanged". -/
def fitsWidth (w : Nat) (v : Val) : Bool :=
  match v with
  | Val.vInt n => decide (-(2 ^ (w - 1) : Int) ≤ n ∧ n < (2 ^ (w - 1) : Int))
  | Val.vNull => true
  | Val.vStr _ => false

/-- The nullable-integer branch as written
(`pd.to_numeric(df[col], errors="coerce").astype(dtype)`,
`data_processing.py` lines 71-73): `none` models the `astype` raising.
This branch is dead code — see `isStringDtypeName`: its line-69 guard
is false for every recommended-type string — but it is kept here so
that `coerceBranch` mirrors the source text. -/
def intBranch (dt : String) (s : Series) : Option Series :=
  match parseIntWidth dt with
  | none => none
  | some w =>
    let d := s.data.map toNumericVal
    if d.all (fitsWidth w) then some ⟨d, DType.intN w⟩ else none

/-- `pd.api.types.is_string_dtype(dtype)` with the recommended-type
string as its argument: pandas resolves a string argument to the dtype
it names and tests that dtype's kind, so the call is true only for
names of string-like dtypes and false for every other dtype name —
in particular `"Int8"` and the other nullable-integer names denote
`Int8Dtype` etc. (kind `i`).  No dtype name beginning with `"Int"`
names a string dtype, so the line-69 conjunction
`is_string_dtype(dtype) and dtype.startswith("Int")` is false for
every mapping entry and the `to_numeric` nullable-integer branch
(lines 71-73) is dead code: `Int*` entries fall through to the generic
`astype` arm at line 78. -/
def isStringDtypeName (dt : String) : Bool :=
  dt = "object" || dt = "str" || dt = "string"

/-- Sequence a per-cell partial cast over a column: any raising cell
makes the whole `astype` raise. -/
def mapOption (f : Val → Option Val) : List Val → Option (List Val)
  | [] => some []
  | v :: vs =>
    match f v, mapOption f vs with
    | some w, some ws => some (w :: ws)
    | _, _ => none

/-- One cell of a nullable-integer `astype` reached through the generic
arm (`df[col].astype("Int8")`): numeric cells are safe-cast (overflow
raises), missing becomes `NA`, and any string cell — numeric text
included — raises: pandas' masked-integer construction accepts only
numeric objects ("object cannot be converted to an IntegerDtype"),
which is why a column holding strings is left unchanged through the
`except` arm. -/
def nullableIntCastVal (w : Nat) : Val → Option Val
  | Val.vInt n =>
    if fitsWidth w (Val.vInt n) then some (Val.vInt n) else none
  | Val.vNull => some Val.vNull
  | Val.vStr _ => none

/-- One cell of a float `astype` of an object column: per-element
`float(...)`, so numeric strings (whitespace-padded included) parse,
other strings raise, `None`/`NaN` stays missing.  As everywhere in the
model, only integer numerals are carried. -/
def floatCastVal : Val → Option Val
  | Val.vInt n => some (Val.vInt n)
  | Val.vStr s => (parseNumeric s).map Val.vInt
  | Val.vNull => some Val.vNull

/-- Python truthiness, used by `astype("bool")` on an object column:
nonzero numbers and nonempty strings are true, and a missing cell is
`NaN`, which is truthy. -/
def truthyVal : Val → Bool
  | Val.vInt n => n != 0
  | Val.vStr s => s ≠ ""
  | Val.vNull => true

/-- The float64 branch (`pd.to_numeric(df[col], errors="coerce")`,
`data_processing.py` line 75); with `errors="coerce"` it never raises. -/
def floatBranch (s : Series) : Series :=
  ⟨s.data.map toNumericVal, DType.float⟩

/-- Distinct non-missing values in first-appearance order (`seen` is the
accumulator of values already emitted). -/
def dedupAux : List Val → List Val → List Val
  | _, [] => []
  | seen, v :: vs =>
    if v = Val.vNull ∨ v ∈ seen then dedupAux seen vs
    else v :: dedupAux (v :: seen) vs

/-- Distinct non-missing values of a column, first appearance first. -/
def dedupNonNull (l : List Val) : List Val := dedupAux [] l

/-- `n` wrapped into the signed range of width `w` (C-style cast used by
numpy integer `astype`). -/
def wrapSigned (w : Nat) (n : Int) : Int :=
  let r := n % (2 ^ w : Int)
  if r ≥ (2 ^ (w - 1) : Int) then r - (2 ^ w : Int) else r

/-- One cell of a numpy-integer `astype`: numeric strings are parsed
(numpy casts via `int(...)`), missing values cannot be cast and raise. -/
def npIntCastVal (w : Nat) : Val → Option Val
  | Val.vInt n => some (Val.vInt (wrapSigned w n))
  | Val.vStr s => (parseNumeric s).map (fun n => Val.vInt (wrapSigned w n))
  | Val.vNull => none

/-- The generic `df[col].astype(dtype)` arm (`data_processing.py`
line 78), for the dtype strings of the mapping vocabulary (spec section
3) and the other common valid targets: `"category"` keeps the cells and
installs an unordered categorical dtype over the distinct non-missing
values; `"object"` is the identity; an `"Int*"` name — which really
reaches this arm, its dedicated branch being dead — is the nullable
cast, raising on any string cell; `"int" | "int8" | ... | "int64"` is a
numpy cast parsing numeric strings and raising on missing or
non-numeric cells; `"float" | "float16" | "float32" | "float64"`
parses per-element, raising only on non-numeric strings; `"bool"` is
the truthiness cast and never raises.  An unknown dtype string raises
("data type not understood").  `none` models the raise, caught by the
`except` arm. -/
def castSeries (dt : String) (s : Series) : Option Series :=
  if dt = "category" then
    some ⟨s.data, DType.cat (dedupNonNull s.data) false⟩
  else if dt = "object" then
    some ⟨s.data, DType.obj⟩
  else if hasPrefixCL ("Int".toList) dt.toList then
    match parseIntWidth dt with
    | none => none
    | some w =>
      (mapOption (nullableIntCastVal w) s.data).map
        (fun d => ⟨d, DType.intN w⟩)
  else if dt = "int" ∨ dt = "int8" ∨ dt = "int16" ∨ dt = "int32" ∨
      dt = "int64" then
    match if dt = "int" then some 64 else digitsVal (dt.toList.drop 3) with
    | none => none
    | some w =>
      (mapOption (npIntCastVal w) s.data).map (fun d => ⟨d, DType.npint w⟩)
  else if dt = "float" ∨ dt = "float16" ∨ dt = "float32" ∨
      dt = "float64" then
    (mapOption floatCastVal s.data).map (fun d => ⟨d, DType.float⟩)
  else if dt = "bool" then
    some ⟨s.data.map (fun v => Val.vInt (if truthyVal v then 1 else 0)),
      DType.boolean⟩
  else none

/-- The non-Likert coercion of one column (`data_processing.py` lines
69-78): the line-69 guard as pandas evaluates it (see
`isStringDtypeName` — false on every `Int*` name, so the first arm is
dead), then the `float64` comparison, then the generic `astype`.
`none` means the branch raised and the `except` arm leaves the column
unchanged. -/
def coerceBranch (dt : String) (s : Series) : Option Series :=
  if isStringDtypeName dt && hasPrefixCL ("Int".toList) dt.toList then
    intBranch dt s
  else if dt = "float64" then some (floatBranch s)
  else castSeries dt s

/-- Result series for one mapping entry applied to one present column:
the Likert branch takes precedence over the recommended type
(`data_processing.py` lines 62-65, `continue`); otherwise the
recommended-type branch runs, and a raising branch leaves the series
as it was (the `except` arm, lines 79-80). -/
def entryResult (c : String) (dt : String) (s : Series) : Series :=
  if c ∈ orderedLikertColumns then likertCoerceSeries s
  else (coerceBranch dt s).getD s

/-- One iteration of the `for col_name, dtype in type_mapping.items()`
loop: columns absent from the frame are skipped (`data_processing.py`
line 59). -/
def applyOne (df : DF) (e : String × String) : DF :=
  match lookupCol df e.1 with
  | none => df
  | some s => setCol df e.1 (entryResult e.1 e.2 s)

/-- Python-dict insertion: a repeated key keeps its first position but
takes the latest value. -/
def dictInsert (l : List (String × String)) (kv : String × String) :
    List (String × String) :=
  if l.any (fun p => p.1 = kv.1) then
    l.map (fun p => if p.1 = kv.1 then (p.1, kv.2) else p)
  else l ++ [kv]

/-- `dict(zip(mapping_df["new_name"], mapping_df["recommended_type"]))`
(`data_processing.py` line 34), from the mapping rows as
(new_name, recommended_type) pairs. -/
def typeMappingOf (m : List (String × String)) : List (String × String) :=
  m.foldl dictInsert []

/-- `apply_data_types(df, mapping_df)` (`data_processing.py` lines
26-82): iterate the type mapping, coercing each named, present column in
place; the function returns the frame it mutated. -/
def applyDataTypes (df : DF) (m : List (String × String)) : DF :=
  (typeMappingOf m).foldl applyOne df

/-! ### `data_analysis.py`: the Masters subgroup filter

`masters_df = survey_data[survey_data["age_category"]
    .isin(masters_age_categories)].copy()` (lines 193-195).
Boolean-mask row selection followed by `.copy()`; the source frame is
not touched, which the pure model renders as value semantics. -/

/-- The fixed allow-list (`data_analysis.py` line 190). -/
def mastersAgeCategories : List String := ["27-40", "41-60", "61+"]

/-- `Series.isin(allow)` on one cell: membership by value equality;
a missing value is never a member. -/
def isinVal (allow : List String) (v : Val) : Bool :=
  allow.any (fun a => v = Val.vStr a)

/-- Keep the rows whose mask entry is `True` (boolean-mask selection
applied to one column's cells). -/
def applyMask : List Bool → List Val → List Val
  | true :: ms, v :: vs => v :: applyMask ms vs
  | false :: ms, _ :: vs => applyMask ms vs
  | _, _ => []

/-- Boolean-mask selection applied to the whole frame: every column is
filtered by the same row mask. -/
def filterByMask (df : DF) (ms : List Bool) : DF :=
  df.map (fun p => (p.1, Series.mk (applyMask ms p.2.data) p.2.dtype))

/-- `df[df[col].isin(allow)].copy()`: the subgroup filter.  `none`
models the `KeyError` raised when the grouping column is absent;
otherwise the mask computed from the grouping column is applied to
every column and the result is an independent frame (the `.copy()`;
value semantics in this model). -/
def subgroupFilter (df : DF) (col : String) (allow : List String) :
    Option DF :=
  (lookupCol df col).map
    (fun s => filterByMask df (s.data.map (isinVal allow)))

/-- The concrete Masters filter of `data_analysis.py` line 193. -/
def mastersFilter (df : DF) : Option DF :=
  subgroupFilter df "age_category" mastersAgeCategories

/-- All columns of the frame have `n` rows (frames loaded from a
spreadsheet are rectangular). -/
def Rect (df : DF) (n : Nat) : Prop :=
  ∀ p ∈ df, (Prod.snd p).data.length = n

instance (df : DF) (n : Nat) : Decidable (Rect df n) :=
  decidable_of_iff (∀ p ∈ df, (Prod.snd p).data.length = n) Iff.rfl

/-! ### `src/visualization.py`: brand palette -/

/-- Is a character a hexadecimal digit (the regex class `[0-9a-fA-F]`)? -/
def isHexChar (c : Char) : Bool :=
  c.isDigit || ('a' ≤ c && c ≤ 'f') || ('A' ≤ c && c ≤ 'F')

/-- Length of the run of hex digits at the head of the text. -/
def hexRunLen : List Char → Nat
  | [] => 0
  | c :: cs => if isHexChar c then hexRunLen cs + 1 else 0

/-- Try the regex `#(?:[0-9a-fA-F]{3}){1,2}` anchored at the head of the
text: greedy, so six hex digits are preferred over three. -/
def matchHexAt : List Char → Option (List Char)
  | [] => none
  | '#' :: cs =>
    let d := hexRunLen cs
    if d ≥ 6 then some ('#' :: cs.take 6)
    else if d ≥ 3 then some ('#' :: cs.take 3)
    else none
  | _ :: _ => none

/-- `re.search` of the hex-code pattern: the leftmost position with a
match wins. -/
def findFirstHexAux : List Char → Option (List Char)
  | [] => none
  | c :: cs =>
    match matchHexAt (c :: cs) with
    | some m => some m
    | none => findFirstHexAux cs

/-- First hex color code on a line, as a string, when one exists. -/
def findFirstHex (line : List Char) : Option String :=
  (findFirstHexAux line).map (fun l => String.mk l)

/-- Substring containment, `pat in line` in Python. -/
def containsSub (pat : List Char) : List Char → Bool
  | [] => hasPrefixCL pat []
  | c :: ts => hasPrefixCL pat (c :: ts) || containsSub pat ts

/-- The marker token looked for on each line (`"HEX:" in line`). -/
def hexMarker : List Char := "HEX:".toList

/-- The accumulation loop of `get_brand_colors` (`visualization.py`
lines 16-20): for each line containing the marker, append the first
regex match, if any. -/
def collectColors : List (List Char) → List String
  | [] => []
  | l :: ls =>
    if containsSub hexMarker l then
      match findFirstHex l with
      | some c => c :: collectColors ls
      | none => collectColors ls
    else collectColors ls

/-- The warning printed when the styling document is missing (the
model's messages leave out the quotation marks the f-string puts around
the path). -/
def brandWarning (path : String) : String :=
  "Warning: Brand color file " ++ path ++ " not found. Using default colors."

/-- `get_brand_colors` (`visualization.py` lines 8-27).  The document is
`none` when opening the file raises `FileNotFoundError`; otherwise it is
the list of lines (as character lists).  Returns (printed messages,
palette): `None` — no palette — when the file is absent or no code was
found, else the first five codes. -/
def getBrandColors (path : String) (doc : Option (List (List Char))) :
    List String × Option (List String) :=
  match doc with
  | none => ([brandWarning path], none)
  | some lines =>
    let colors := collectColors lines
    ([], if colors.isEmpty then none else some (colors.take 5))

/-- Modelled from the spec wording of §4.4, for comparison with the
code: the marker lines' first matches, in document order, capped at
five. -/
def brandPaletteSpec (lines : List (List Char)) : List String :=
  ((lines.filter (fun l => containsSub hexMarker l)).filterMap findFirstHex).take 5

/-! ### `src/visualization.py`: value counts and bar ordering -/

/-- Count of a value among a column's cells. -/
def countVal (data : List Val) (v : Val) : Nat := data.count v

/-- Stable insertion into a count-descending list: an element is placed
after all entries with a count at least as large, so equal counts keep
their input order. -/
def insertDesc (x : Val × Nat) : List (Val × Nat) → List (Val × Nat)
  | [] => [x]
  | y :: ys => if x.2 ≤ y.2 then y :: insertDesc x ys else x :: y :: ys

/-- Stable sort by descending count. -/
def sortDesc (l : List (Val × Nat)) : List (Val × Nat) :=
  l.foldr insertDesc []

/-- `Series.value_counts()` as (value, count) pairs, count-descending.
On a categorical series pandas counts every declared category —
including the ones that never occur, which get count 0; on any other
dtype it counts the distinct non-missing values.  `NaN` is never
counted (`dropna=True` default).  Ties are broken stably here; pandas
leaves tie order unspecified, so no claim below rests on tie order. -/
def valueCountsPairs (s : Series) : List (Val × Nat) :=
  match s.dtype with
  | DType.cat cats _ => sortDesc (cats.map (fun c => (c, countVal s.data c)))
  | _ => sortDesc ((dedupNonNull s.data).map (fun v => (v, countVal s.data v)))

/-- `value_counts().index` of a series. -/
def vcIndex (s : Series) : List Val := (valueCountsPairs s).map Prod.fst

/-- Bar order of `create_bar_chart` in `src/visualization.py` (lines
67-78): the declared category order when the column's dtype is an
ordered categorical, else the frequency-descending `value_counts`
index. -/
def barOrderViz (s : Series) : List Val :=
  match s.dtype with
  | DType.cat cats true => cats
  | _ => vcIndex s

/-- Bar order of the older duplicate `create_bar_chart` in
`data_analysis.py` (line 144): always the `value_counts` index, with no
ordered-categorical branch. -/
def barOrderDA (s : Series) : List Val := vcIndex s

/-! ### `src/visualization.py`: the two-column comparison data -/

/-- Union of two index lists, keeping the left list's entries first
(`column1_counts.index.union(column2_counts.index)`; only the resulting
set of categories matters to the claims, not pandas' sorting of it). -/
def unionList (a b : List Val) : List Val := a ++ b.filter (fun v => v ∉ a)

/-- `all_categories` of `create_comparison_chart` (`visualization.py`
line 154): the union of the two columns' `value_counts` indices. -/
def comparisonAllCats (s1 s2 : Series) : List Val :=
  unionList (vcIndex s1) (vcIndex s2)

/-- `counts.reindex(all_categories, fill_value=0)` read at one
category: the counted value where the index has it, else 0. -/
def reindexHeight (s : Series) (v : Val) : Nat :=
  match (valueCountsPairs s).find? (fun p => p.1 = v) with
  | some p => p.2
  | none => 0

/-! ### `src/visualization.py`: chart-call control flow

Each chart producer is modelled as a straight-line run over the frame:
the record registers what the call printed, whether a figure was opened
(`plt.figure`) and closed (`plt.close`), the file it saved, and whether
it exited by raising.  `savefigFails` injects a failure of the one
environment-dependent step, `plt.savefig` (full disk, bad path); the
Python code has no try/finally around the figure lifetime, so the model
mirrors its purely sequential execution.  Color/palette handling and
the actual drawing calls have no observable effect on any claim and are
not recorded. -/

/-- Observable outcome of one chart-producing call. -/
structure ChartRun where
  msgs : List String
  figOpened : Bool
  figClosed : Bool
  saved : Option String
  raised : Bool
deriving DecidableEq, Repr

/-- The guard message of `create_bar_chart` (`visualization.py` line
53), without the f-string quotation marks. -/
def missingColMsg (col : String) : String :=
  "Column " ++ col ++ " not found in the DataFrame."

/-- The guard message of `create_comparison_chart` (`visualization.py`
lines 133-135). -/
def missingColsMsg (c1 c2 : String) : String :=
  "One of the columns " ++ c1 ++ " or " ++ c2 ++ " not found in the DataFrame."

/-- Output path of a saved chart: explicit name or derived name, with
the fixed suffix, under the chart directory. -/
def chartFile (chartPath : String) (derived : String)
    (chartName : Option String) : String :=
  chartPath ++ "/" ++ (chartName.getD derived) ++ ".png"

/-- `create_bar_chart` (`visualization.py` lines 30-108): guard on the
column, open the figure, draw with `barOrderViz`, save, close.  No
try/finally: when `plt.savefig` raises, the exception propagates and
`plt.close()` (line 108) is never reached. -/
def createBarChart (savefigFails : Bool) (df : DF) (col : String)
    (chartPath : String) (chartName : Option String) : ChartRun :=
  match lookupCol df col with
  | none => ⟨[missingColMsg col], false, false, none, false⟩
  | some _ =>
    if savefigFails then ⟨[], true, false, none, true⟩
    else
      let f := chartFile chartPath (col ++ "_distribution") chartName
      ⟨["Chart saved to " ++ f], true, true, some f, false⟩

/-- The bar order `create_bar_chart` draws with, for a present column
(the `order` argument passed to `sns.countplot` at line 90). -/
def barChartOrder (df : DF) (col : String) : Option (List Val) :=
  (lookupCol df col).map barOrderViz

/-- `create_comparison_chart` (`visualization.py` lines 111-191): guard
on both columns, open the figure, draw paired bars over
`comparisonAllCats`, save, close; again no try/finally. -/
def createComparisonChart (savefigFails : Bool) (df : DF) (c1 c2 : String)
    (chartPath : String) (chartName : Option String) : ChartRun :=
  match lookupCol df c1, lookupCol df c2 with
  | some _, some _ =>
    if savefigFails then ⟨[], true, false, none, true⟩
    else
      let f := chartFile chartPath (c1 ++ "_" ++ c2 ++ "_comparison") chartName
      ⟨["Comparison chart saved to " ++ f], true, true, some f, false⟩
  | _, _ => ⟨[missingColsMsg c1 c2], false, false, none, false⟩

/-- Sum of a boolean/0-1 indicator column
(`df[...].sum()`, `visualization.py` line 215): missing cells are
skipped (pandas `skipna`), integers add up.  The reason columns are 0/1
indicators, so no other cell kind occurs. -/
def reasonSum (data : List Val) : Int :=
  data.foldl
    (fun a v => a + (match v with | Val.vInt n => n | _ => 0)) 0

/-- Stable insertion into an `Int`-count-descending list of labelled
counts. -/
def insertDescI (x : String × Int) : List (String × Int) → List (String × Int)
  | [] => [x]
  | y :: ys => if x.2 ≤ y.2 then y :: insertDescI x ys else x :: y :: ys

/-- The reason counts, relabelled and sorted descending
(`visualization.py` lines 215-218). -/
def reasonCountsOf (df : DF) (reasonCols : List (String × String)) :
    List (String × Int) :=
  (reasonCols.map (fun rc =>
      (rc.2, reasonSum (((lookupCol df rc.1).getD ⟨[], DType.obj⟩).data)))).foldr
    insertDescI []

/-- `create_reasons_summary_chart` (`visualization.py` lines 194-244):
there is no missing-column guard — `df[reason_columns.keys()]`raises
`KeyError` (before any figure is opened) whenever one of the keys is
absent from the frame.  Otherwise: sum, relabel, sort, open the figure,
draw, save, close. -/
def createReasonsSummaryChart (savefigFails : Bool) (df : DF)
    (reasonCols : List (String × String)) (chartPath : String)
    (chartName : Option String) : ChartRun :=
  if reasonCols.any (fun rc => (lookupCol df rc.1).isNone) then
    ⟨[], false, false, none, true⟩
  else
    if savefigFails then ⟨[], true, false, none, true⟩
    else
      let f := chartFile chartPath "reasons_summary" chartName
      ⟨["Summary chart saved to " ++ f], true, true, some f, false⟩

/-! ### Frame lemmas for the coercion loop -/

theorem colNames_setCol (df : DF) (c : String) (s' : Series) :
    colNames (setCol df c s') = colNames df := by
  induction df with
  | nil => rfl
  | cons p rest ih =>
    obtain ⟨n, s⟩ := p
    by_cases h : n = c
    · simp [setCol, colNames, h]
    · simp only [setCol, if_neg h]
      show n :: colNames (setCol rest c s') = n :: colNames rest
      rw [ih]

theorem mem_colNames_of_lookup {df : DF} {c : String} {s : Series}
    (h : lookupCol df c = some s) : c ∈ colNames df := by
  induction df with
  | nil => simp [lookupCol] at h
  | cons p rest ih =>
    obtain ⟨n, s0⟩ := p
    by_cases hn : n = c
    · show c ∈ n :: colNames rest
      exact List.mem_cons.mpr (Or.inl hn.symm)
    · simp only [lookupCol, if_neg hn] at h
      show c ∈ n :: colNames rest
      exact List.mem_cons.mpr (Or.inr (ih h))

theorem lookupCol_setCol_self {df : DF} {c : String} (s' : Series)
    (h : c ∈ colNames df) : lookupCol (setCol df c s') c = some s' := by
  induction df with
  | nil => simp [colNames] at h
  | cons p rest ih =>
    obtain ⟨n, s0⟩ := p
    by_cases hn : n = c
    · simp [setCol, lookupCol, hn]
    · have h' : c ∈ n :: colNames rest := h
      rcases List.mem_cons.mp h' with h'' | h''
      · exact absurd h''.symm hn
      · simpa [setCol, lookupCol, hn] using ih h''

theorem lookupCol_setCol_ne (df : DF) {c c' : String} (s' : Series)
    (h : c' ≠ c) : lookupCol (setCol df c s') c' = lookupCol df c' := by
  induction df with
  | nil => rfl
  | cons p rest ih =>
    obtain ⟨n, s0⟩ := p
    by_cases hn : n = c
    · subst hn
      have hnc : ¬ n = c' := fun hcc => h hcc.symm
      simp [setCol, lookupCol, hnc]
    · by_cases hn' : n = c'
      · simp [setCol, lookupCol, hn, hn', h]
      · simp [setCol, lookupCol, hn, hn', ih]

theorem colNames_applyOne (df : DF) (e : String × String) :
    colNames (applyOne df e) = colNames df := by
  unfold applyOne
  cases lookupCol df e.1 with
  | none => rfl
  | some s => exact colNames_setCol df e.1 _

theorem lookupCol_applyOne_ne (df : DF) (e : String × String) {c : String}
    (h : e.1 ≠ c) : lookupCol (applyOne df e) c = lookupCol df c := by
  unfold applyOne
  cases lookupCol df e.1 with
  | none => rfl
  | some s => exact lookupCol_setCol_ne df _ (fun hc => h hc.symm)

theorem lookupCol_applyOne_self (df : DF) (c dt : String) :
    lookupCol (applyOne df (c, dt)) c =
      (lookupCol df c).map (entryResult c dt) := by
  have hdef : applyOne df (c, dt) =
      match lookupCol df c with
      | none => df
      | some s => setCol df c (entryResult c dt s) := rfl
  rw [hdef]
  cases h : lookupCol df c with
  | none => exact h
  | some s =>
    simpa using lookupCol_setCol_self _ (mem_colNames_of_lookup h)

theorem colNames_foldl_applyOne (l : List (String × String)) (df : DF) :
    colNames (l.foldl applyOne df) = colNames df := by
  induction l generalizing df with
  | nil => rfl
  | cons e rest ih => simpa [List.foldl_cons, colNames_applyOne] using
      (ih (applyOne df e)).trans (colNames_applyOne df e)

theorem lookupCol_foldl_not_mem {l : List (String × String)} (df : DF)
    {c : String} (h : c ∉ l.map Prod.fst) :
    lookupCol (l.foldl applyOne df) c = lookupCol df c := by
  induction l generalizing df with
  | nil => rfl
  | cons e rest ih =>
    simp only [List.map_cons, List.mem_cons, not_or] at h
    rw [List.foldl_cons, ih (applyOne df e) h.2,
      lookupCol_applyOne_ne df e (fun hc => h.1 hc.symm)]

theorem lookupCol_foldl_mem {l : List (String × String)} (df : DF)
    {c dt : String} (hnd : (l.map Prod.fst).Nodup) (hm : (c, dt) ∈ l) :
    lookupCol (l.foldl applyOne df) c =
      (lookupCol df c).map (entryResult c dt) := by
  induction l generalizing df with
  | nil => simp at hm
  | cons e rest ih =>
    simp only [List.map_cons, List.nodup_cons] at hnd
    rcases List.mem_cons.mp hm with he | hrest
    · subst he
      have hnot : c ∉ rest.map Prod.fst := hnd.1
      rw [List.foldl_cons, lookupCol_foldl_not_mem _ hnot,
        lookupCol_applyOne_self]
    · have hne : e.1 ≠ c := by
        intro hc
        exact hnd.1 (hc ▸ List.mem_map.mpr ⟨(c, dt), hrest, rfl⟩)
      rw [List.foldl_cons, ih (applyOne df e) hnd.2 hrest,
        lookupCol_applyOne_ne df e hne]

/-! ### Lemmas about the python-dict construction -/

theorem keys_dictInsert (l : List (String × String)) (kv : String × String) :
    (dictInsert l kv).map Prod.fst =
      if kv.1 ∈ l.map Prod.fst then l.map Prod.fst
      else l.map Prod.fst ++ [kv.1] := by
  unfold dictInsert
  by_cases h : kv.1 ∈ l.map Prod.fst
  · have hany : l.any (fun p => p.1 = kv.1) = true := by
      rcases List.mem_map.mp h with ⟨p, hp, hfst⟩
      exact List.any_eq_true.mpr ⟨p, hp, by simp [hfst]⟩
    rw [if_pos hany, if_pos h, List.map_map]
    refine List.map_congr_left ?_
    intro p _
    by_cases hp : p.1 = kv.1 <;> simp [hp]
  · have hany : l.any (fun p => p.1 = kv.1) = false := by
      rw [List.any_eq_false]
      intro p hp
      simp only [decide_eq_true_eq]
      intro hfst
      exact h (List.mem_map.mpr ⟨p, hp, hfst⟩)
    rw [hany, if_neg h]
    simp

theorem nodup_keys_foldl_dictInsert (m : List (String × String)) :
    ∀ acc : List (String × String), (acc.map Prod.fst).Nodup →
      ((m.foldl dictInsert acc).map Prod.fst).Nodup := by
  induction m with
  | nil => intro acc h; exact h
  | cons kv rest ih =>
    intro acc h
    refine ih (dictInsert acc kv) ?_
    rw [keys_dictInsert]
    by_cases hmem : kv.1 ∈ acc.map Prod.fst
    · rw [if_pos hmem]
      exact h
    · rw [if_neg hmem]
      refine List.Nodup.append h (List.nodup_singleton _) ?_
      intro a ha hb
      rw [List.mem_singleton] at hb
      exact hmem (hb ▸ ha)

theorem mem_keys_dictInsert_left {l : List (String × String)}
    {kv : String × String} {c : String} (h : c ∈ l.map Prod.fst) :
    c ∈ (dictInsert l kv).map Prod.fst := by
  rw [keys_dictInsert]
  by_cases hmem : kv.1 ∈ l.map Prod.fst <;> simp [hmem, h]

theorem mem_keys_dictInsert_self (l : List (String × String))
    (kv : String × String) : kv.1 ∈ (dictInsert l kv).map Prod.fst := by
  rw [keys_dictInsert]
  by_cases hmem : kv.1 ∈ l.map Prod.fst <;> simp [hmem]

theorem mem_keys_foldl_acc {m : List (String × String)} :
    ∀ {acc : List (String × String)} {c : String},
      c ∈ acc.map Prod.fst → c ∈ (m.foldl dictInsert acc).map Prod.fst := by
  induction m with
  | nil => intro acc c h; exact h
  | cons kv rest ih =>
    intro acc c h
    exact ih (mem_keys_dictInsert_left h)

theorem mem_keys_typeMappingOf_aux {m : List (String × String)} {c : String}
    (h : c ∈ m.map Prod.fst) :
    ∀ acc : List (String × String), c ∈ (m.foldl dictInsert acc).map Prod.fst := by
  induction m with
  | nil => simp at h
  | cons kv rest ih =>
    intro acc
    rw [List.map_cons] at h
    rcases List.mem_cons.mp h with he | hrest
    · rw [List.foldl_cons]
      refine mem_keys_foldl_acc ?_
      rw [he]
      exact mem_keys_dictInsert_self acc kv
    · rw [List.foldl_cons]
      exact ih hrest (dictInsert acc kv)

theorem keys_dictInsert_subset {l : List (String × String)}
    {kv : String × String} {c : String}
    (h : c ∈ (dictInsert l kv).map Prod.fst) :
    c ∈ l.map Prod.fst ∨ c = kv.1 := by
  rw [keys_dictInsert] at h
  by_cases hmem : kv.1 ∈ l.map Prod.fst
  · rw [if_pos hmem] at h; exact Or.inl h
  · rw [if_neg hmem] at h
    rcases List.mem_append.mp h with h | h
    · exact Or.inl h
    · exact Or.inr (by simpa using h)

theorem keys_foldl_subset {m : List (String × String)} :
    ∀ {acc : List (String × String)} {c : String},
      c ∈ (m.foldl dictInsert acc).map Prod.fst →
      c ∈ acc.map Prod.fst ∨ c ∈ m.map Prod.fst := by
  induction m with
  | nil => intro acc c h; exact Or.inl h
  | cons kv rest ih =>
    intro acc c h
    rcases ih h with h' | h'
    · rcases keys_dictInsert_subset h' with h'' | h''
      · exact Or.inl h''
      · refine Or.inr ?_
        rw [List.map_cons]
        exact List.mem_cons.mpr (Or.inl h'')
    · refine Or.inr ?_
      rw [List.map_cons]
      exact List.mem_cons.mpr (Or.inr h')

theorem nodup_keys_typeMappingOf (m : List (String × String)) :
    ((typeMappingOf m).map Prod.fst).Nodup :=
  nodup_keys_foldl_dictInsert m [] (by simp)

theorem mem_keys_typeMappingOf {m : List (String × String)} {c : String}
    (h : c ∈ m.map Prod.fst) : c ∈ (typeMappingOf m).map Prod.fst :=
  mem_keys_typeMappingOf_aux h []

theorem not_mem_keys_typeMappingOf {m : List (String × String)} {c : String}
    (h : c ∉ m.map Prod.fst) : c ∉ (typeMappingOf m).map Prod.fst := by
  intro hc
  rcases keys_foldl_subset hc with h' | h'
  · simp at h'
  · exact h h'

/-! ### The three facts about `apply_data_types` as a loop -/

theorem colNames_applyDataTypes (df : DF) (m : List (String × String)) :
    colNames (applyDataTypes df m) = colNames df :=
  colNames_foldl_applyOne _ df

theorem lookupCol_applyDataTypes_not_mem (df : DF)
    {m : List (String × String)} {c : String} (h : c ∉ m.map Prod.fst) :
    lookupCol (applyDataTypes df m) c = lookupCol df c :=
  lookupCol_foldl_not_mem df (not_mem_keys_typeMappingOf h)

theorem lookupCol_applyDataTypes_entry (df : DF)
    {m : List (String × String)} {c dt : String}
    (h : (c, dt) ∈ typeMappingOf m) :
    lookupCol (applyDataTypes df m) c =
      (lookupCol df c).map (entryResult c dt) :=
  lookupCol_foldl_mem df (nodup_keys_typeMappingOf m) h

theorem lookupCol_applyDataTypes_mem (df : DF)
    {m : List (String × String)} {c : String} (h : c ∈ m.map Prod.fst) :
    ∃ dt, lookupCol (applyDataTypes df m) c =
      (lookupCol df c).map (entryResult c dt) := by
  rcases List.mem_map.mp (mem_keys_typeMappingOf h) with ⟨⟨c', dt⟩, hp, hfst⟩
  cases hfst
  exact ⟨dt, lookupCol_applyDataTypes_entry df hp⟩

theorem lookup_isSome_of_mem {df : DF} {c : String}
    (h : c ∈ colNames df) : ∃ s, lookupCol df c = some s := by
  induction df with
  | nil => simp [colNames] at h
  | cons p rest ih =>
    obtain ⟨n, s0⟩ := p
    by_cases hn : n = c
    · exact ⟨s0, by simp [lookupCol, hn]⟩
    · have h' : c ∈ n :: colNames rest := h
      rcases List.mem_cons.mp h' with h'' | h''
      · exact absurd h''.symm hn
      · simpa [lookupCol, hn] using ih h''

/-! ### Claim C1: the Ordered-Likert coercion -/

/-- C1.  For every column named in the mapping that is one of the five
fixed Ordered-Likert columns and is present in the table,
`apply_data_types` replaces the column with an ordered categorical whose
category ordering is exactly
["Strongly Disagree", "Disagree", "Neutral", "Agree", "Strongly Agree"]
regardless of which values occur in the data, maps each integer code k
in 1-5 to the label at ordinal position k-1, and applies this in
preference to the entry's recommended type: the conclusion holds for an
arbitrary mapping table, whatever the recommended_type cell of the
column says. -/
theorem likert_coercion_c1 (df : DF) (m : List (String × String))
    (c : String) (hmap : c ∈ m.map Prod.fst)
    (hlik : c ∈ orderedLikertColumns) (hcol : c ∈ colNames df) :
    ∃ s, lookupCol df c = some s ∧
      lookupCol (applyDataTypes df m) c =
        some ⟨s.data.map (fun v => astypeCatVal catCategories (likertMapVal v)),
              DType.cat catCategories true⟩ ∧
      (∀ k : Nat, 1 ≤ k → k ≤ 5 →
        ∃ lbl, likertMapVal (Val.vInt k) = Val.vStr lbl ∧
          categoryOrder[k - 1]? = some lbl) := by
  obtain ⟨dt, hdt⟩ := lookupCol_applyDataTypes_mem df hmap
  obtain ⟨s, hs⟩ := lookup_isSome_of_mem hcol
  refine ⟨s, hs, ?_, ?_⟩
  · rw [hdt, hs]
    simp [entryResult, hlik, likertCoerceSeries]
  · intro k h1 h5
    interval_cases k
    · exact ⟨"Strongly Disagree", by decide, by decide⟩
    · exact ⟨"Disagree", by decide, by decide⟩
    · exact ⟨"Neutral", by decide, by decide⟩
    · exact ⟨"Agree", by decide, by decide⟩
    · exact ⟨"Strongly Agree", by decide, by decide⟩

/-- A two-column frame holding a raw Likert answer, for evaluating the
coercion concretely.  The mapping recommends `Int8` for the Likert
column, which the fixed Likert handling must override. -/
def dfW1 : DF :=
  [("respondent_id", ⟨[Val.vInt 10, Val.vInt 11], DType.obj⟩),
   ("rating_accessibility", ⟨[Val.vInt 3, Val.vNull], DType.obj⟩)]

/-- Mapping rows (new_name, recommended_type) for `dfW1`. -/
def mW1 : List (String × String) :=
  [("respondent_id", "Int8"), ("rating_accessibility", "Int8")]

/-- Witness for C1 at a concrete frame: raw code 3 becomes "Neutral"
under the fixed categorical dtype even though the mapping recommended
`Int8`. -/
theorem likert_coercion_c1_witness :
    ∃ s, lookupCol dfW1 "rating_accessibility" = some s ∧
      lookupCol (applyDataTypes dfW1 mW1) "rating_accessibility" =
        some ⟨s.data.map (fun v => astypeCatVal catCategories (likertMapVal v)),
              DType.cat catCategories true⟩ ∧
      (∀ k : Nat, 1 ≤ k → k ≤ 5 →
        ∃ lbl, likertMapVal (Val.vInt k) = Val.vStr lbl ∧
          categoryOrder[k - 1]? = some lbl) :=
  likert_coercion_c1 dfW1 mW1 "rating_accessibility"
    (by decide) (by decide) (by decide)

/-! ### Claim C10: in-place, column-by-column frame effect -/

/-- C10.  `apply_data_types` mutates its input table in place, column by
column, and returns the table it was given (mutation is modelled as the
frame value threaded through the `foldl` of per-column updates; the
returned frame is that threaded state, not a rebuilt one).  Columns not
named in the mapping are left unchanged, the column set is unchanged,
and a named column whose coercion branch raises is left unchanged. -/
theorem apply_data_types_frame_c10 (df : DF) (m : List (String × String)) :
    colNames (applyDataTypes df m) = colNames df ∧
    (∀ c, c ∉ m.map Prod.fst →
      lookupCol (applyDataTypes df m) c = lookupCol df c) ∧
    (∀ c dt s, (c, dt) ∈ typeMappingOf m → c ∉ orderedLikertColumns →
      lookupCol df c = some s → coerceBranch dt s = none →
      lookupCol (applyDataTypes df m) c = some s) := by
  refine ⟨colNames_applyDataTypes df m,
    fun c hc => lookupCol_applyDataTypes_not_mem df hc, ?_⟩
  intro c dt s hm hlik hs hfail
  rw [lookupCol_applyDataTypes_entry df hm, hs]
  simp [entryResult, hlik, hfail]

/-- A frame with one column whose `Int8` coercion raises — the
dedicated nullable-integer branch being dead, the generic
`astype("Int8")` runs and rejects the string cell — and one column the
mapping does not name. -/
def dfW10 : DF :=
  [("age", ⟨[Val.vStr "abc"], DType.obj⟩),
   ("note", ⟨[Val.vStr "x"], DType.obj⟩)]

/-- Mapping rows for `dfW10`: only `age`, with a raising cast target. -/
def mW10 : List (String × String) := [("age", "Int8")]

/-- Witness for C10 at a concrete frame: the unmapped column and the
column whose cast raised are both untouched, and the column set is
preserved. -/
theorem apply_data_types_frame_c10_witness :
    colNames (applyDataTypes dfW10 mW10) = colNames dfW10 ∧
    lookupCol (applyDataTypes dfW10 mW10) "note" = lookupCol dfW10 "note" ∧
    lookupCol (applyDataTypes dfW10 mW10) "age" =
      some ⟨[Val.vStr "abc"], DType.obj⟩ :=
  ⟨(apply_data_types_frame_c10 dfW10 mW10).1,
   (apply_data_types_frame_c10 dfW10 mW10).2.1 "note" (by decide),
   (apply_data_types_frame_c10 dfW10 mW10).2.2 "age" "Int8"
     ⟨[Val.vStr "abc"], DType.obj⟩ (by decide) (by decide) (by decide)
     (by decide)⟩

/-! ### Claim C9: the Likert branch nulls non-codes and is not
idempotent -/

/-- Every value the Likert `map` produces is either missing or one of
the five scale labels. -/
theorem likertMapVal_cases (v : Val) :
    likertMapVal v = Val.vNull ∨
      ∃ l, l ∈ categoryOrder ∧ likertMapVal v = Val.vStr l := by
  unfold likertMapVal
  split
  · exact Or.inr ⟨"Strongly Disagree", by decide, rfl⟩
  · exact Or.inr ⟨"Disagree", by decide, rfl⟩
  · exact Or.inr ⟨"Neutral", by decide, rfl⟩
  · exact Or.inr ⟨"Agree", by decide, rfl⟩
  · exact Or.inr ⟨"Strongly Agree", by decide, rfl⟩
  · exact Or.inl rfl

/-- One cell put twice through the Likert branch is always missing: the
first pass leaves only labels and missing values, and neither is an
integer code. -/
theorem likert_double_null (u : Val) :
    astypeCatVal catCategories (likertMapVal
      (astypeCatVal catCategories (likertMapVal u))) = Val.vNull := by
  rcases likertMapVal_cases u with h | ⟨l, hl, h⟩
  · rw [h]
    rfl
  · rw [h]
    have hmem : Val.vStr l ∈ catCategories := List.mem_map.mpr ⟨l, hl, rfl⟩
    have h1 : astypeCatVal catCategories (Val.vStr l) = Val.vStr l := by
      simp [astypeCatVal, hmem]
    rw [h1]
    rfl

/-- A frame whose Likert column holds every code 1-5, to evaluate the
double coercion concretely. -/
def dfW9 : DF :=
  [("rating_accessibility",
    ⟨[Val.vInt 1, Val.vInt 2, Val.vInt 3, Val.vInt 4, Val.vInt 5],
     DType.obj⟩)]

/-- Mapping rows for `dfW9`. -/
def mW9 : List (String × String) := [("rating_accessibility", "Int8")]

/-- C9.  In the Ordered-Likert branch, every cell value that is not one
of the integer codes 1-5 — the five labels themselves included — is
mapped to missing; hence a second application of the coercion to an
already-coerced column turns every cell into missing, and on a concrete
frame applying `apply_data_types` twice differs from applying it once:
the Likert coercion is not idempotent. -/
theorem likert_not_idempotent_c9 :
    (∀ v : Val, (∀ k : Int, 1 ≤ k → k ≤ 5 → v ≠ Val.vInt k) →
      likertMapVal v = Val.vNull) ∧
    (∀ s : Series,
      ∀ v ∈ (likertCoerceSeries (likertCoerceSeries s)).data, v = Val.vNull) ∧
    applyDataTypes (applyDataTypes dfW9 mW9) mW9 ≠ applyDataTypes dfW9 mW9 := by
  refine ⟨?_, ?_, by decide⟩
  · intro v hv
    rcases v with n | str
    · have h1 := hv 1 (by norm_num) (by norm_num)
      have h2 := hv 2 (by norm_num) (by norm_num)
      have h3 := hv 3 (by norm_num) (by norm_num)
      have h4 := hv 4 (by norm_num) (by norm_num)
      have h5 := hv 5 (by norm_num) (by norm_num)
      unfold likertMapVal
      split <;> simp_all
    · rfl
    · rfl
  · intro s v hv
    simp only [likertCoerceSeries, List.map_map, List.mem_map] at hv
    obtain ⟨u, _, hu⟩ := hv
    rw [← hu]
    exact likert_double_null u

/-- Witness for C9: a cell already holding the label "Agree" — not an
integer code — is nulled by the Likert map. -/
theorem likert_not_idempotent_c9_witness :
    likertMapVal (Val.vStr "Agree") = Val.vNull :=
  likert_not_idempotent_c9.1 (Val.vStr "Agree")
    (fun _ _ _ h => Val.noConfusion h)

/-! ### Claim C3: unparseable numeric strings under `to_numeric` -/

/-- A frame exercising the live `float64` coercion branch on a
whitespace-padded numeral, a stray-character string, and a missing
cell. -/
def dfW3 : DF := [("score", ⟨[Val.vStr " 3 ", Val.vStr "3x", Val.vNull],
  DType.obj⟩)]

/-- Mapping rows for `dfW3`. -/
def mW3 : List (String × String) := [("score", "float64")]

/-- A frame whose column holds a stray-character string, mapped to the
nullable-integer recommended type `Int8`. -/
def dfW3i : DF := [("score", ⟨[Val.vStr "3x"], DType.obj⟩)]

/-- Mapping rows for `dfW3i`. -/
def mW3i : List (String × String) := [("score", "Int8")]

/-- Counterexample to C3 as stated, in both halves.  In the live
`float64` branch the whitespace-padded numeric string " 3 " is parsed
(the numeric parser behind `pd.to_numeric` skips surrounding
whitespace) and becomes the number 3, not missing — while the
stray-character string "3x" does become missing.  And for a
nullable-integer entry the `to_numeric` branch never runs (its
`is_string_dtype` guard is false on the dtype string): the generic
`astype("Int8")` raises on the string cell, so "3x" stays "3x",
unchanged rather than missing. -/
theorem to_numeric_whitespace_c3_cex :
    lookupCol (applyDataTypes dfW3 mW3) "score" =
      some ⟨[Val.vInt 3, Val.vNull, Val.vNull], DType.float⟩ ∧
    toNumericVal (Val.vStr " 3 ") = Val.vInt 3 ∧
    Val.vInt 3 ≠ Val.vNull ∧
    lookupCol (applyDataTypes dfW3i mW3i) "score" =
      some ⟨[Val.vStr "3x"], DType.obj⟩ ∧
    Val.vStr "3x" ≠ Val.vNull := by
  refine ⟨by decide, by decide, by decide, by decide, by decide⟩

/-- An `Int*`-prefixed dtype name is not a string-dtype name. -/
theorem int_prefix_not_string_dtype {dt : String}
    (h : hasPrefixCL ("Int".toList) dt.toList = true) :
    isStringDtypeName dt = false := by
  have h1 : dt ≠ "object" := by
    intro he
    subst he
    exact absurd h (by decide)
  have h2 : dt ≠ "str" := by
    intro he
    subst he
    exact absurd h (by decide)
  have h3 : dt ≠ "string" := by
    intro he
    subst he
    exact absurd h (by decide)
  simp [isStringDtypeName, h1, h2, h3]

/-- A cell the per-cell cast rejects makes the whole cast raise. -/
theorem mapOption_eq_none {f : Val → Option Val} {l : List Val} {x : Val}
    (hx : x ∈ l) (hf : f x = none) : mapOption f l = none := by
  induction l with
  | nil => cases hx
  | cons v vs ih =>
    rcases List.mem_cons.mp hx with h | h
    · subst h
      simp only [mapOption]
      rw [hf]
    · simp only [mapOption]
      rw [ih h]
      cases f v <;> rfl

/-- For an `Int*` recommended type, the whole coercion of a column that
holds any string cell raises: the dedicated `to_numeric` branch is dead
(line-69 guard false) and the generic nullable `astype` rejects string
objects. -/
theorem coerceBranch_int_none {dt : String} {s : Series}
    (hpre : hasPrefixCL ("Int".toList) dt.toList = true)
    (hstr : ∃ str, Val.vStr str ∈ s.data) :
    coerceBranch dt s = none := by
  have hnotstr := int_prefix_not_string_dtype hpre
  have hne64 : dt ≠ "float64" := by
    intro he
    subst he
    exact absurd hpre (by decide)
  have hnecat : dt ≠ "category" := by
    intro he
    subst he
    exact absurd hpre (by decide)
  have hneobj : dt ≠ "object" := by
    intro he
    subst he
    exact absurd hpre (by decide)
  obtain ⟨str, hmem⟩ := hstr
  have hcast : castSeries dt s = none := by
    unfold castSeries
    rw [if_neg hnecat, if_neg hneobj, if_pos hpre]
    cases hw : parseIntWidth dt with
    | none => rfl
    | some w =>
      have hmap : mapOption (nullableIntCastVal w) s.data = none :=
        mapOption_eq_none hmem rfl
      simp [hmap]
  unfold coerceBranch
  rw [hnotstr]
  simp [hne64, hcast]

/-- C3 as amended.  The `float64` branch is the live `to_numeric`
coercion: it rewrites the column to its cell-wise `to_numeric` image,
under which every string the numeric parser rejects — stray characters
included — becomes missing, never the number zero, and a numeric result
is exactly the parsed value, so surrounding whitespace is stripped
rather than making the value unparseable.  The nullable-integer branch
of lines 71-73, by contrast, is dead code: `is_string_dtype(dtype)` is
false on the dtype string, so an `Int*` entry takes the generic
`astype` arm, which raises on any string cell; the whole column is then
left unchanged by the `except` arm — such cells become neither missing
nor zero. -/
theorem to_numeric_coercion_c3 :
    (∀ (df : DF) (m : List (String × String)) (c : String) (s : Series),
      (c, "float64") ∈ typeMappingOf m → c ∉ orderedLikertColumns →
      lookupCol df c = some s →
      lookupCol (applyDataTypes df m) c =
        some ⟨s.data.map toNumericVal, DType.float⟩) ∧
    (∀ str : String, parseNumeric str = none →
      toNumericVal (Val.vStr str) = Val.vNull ∧ Val.vNull ≠ Val.vInt 0) ∧
    (∀ (str : String) (n : Int), toNumericVal (Val.vStr str) = Val.vInt n →
      parseNumeric str = some n) ∧
    (∀ (df : DF) (m : List (String × String)) (c dt : String) (s : Series),
      (c, dt) ∈ typeMappingOf m → c ∉ orderedLikertColumns →
      hasPrefixCL ("Int".toList) dt.toList = true →
      (∃ str, Val.vStr str ∈ s.data) →
      lookupCol df c = some s →
      lookupCol (applyDataTypes df m) c = some s) := by
  refine ⟨?_, ?_, ?_, ?_⟩
  · intro df m c s hm hlik hs
    rw [lookupCol_applyDataTypes_entry df hm, hs]
    have hcb : coerceBranch "float64" s = some (floatBranch s) := by
      unfold coerceBranch
      rw [show (isStringDtypeName "float64" &&
          hasPrefixCL ("Int".toList) (("float64" : String).toList)) = false
        from by decide]
      simp
    simp [entryResult, hlik, hcb, floatBranch]
  · intro str hstr
    refine ⟨?_, by decide⟩
    simp [toNumericVal, hstr]
  · intro str n h
    have h' : (match parseNumeric str with
        | some k => Val.vInt k
        | none => Val.vNull) = Val.vInt n := h
    cases hp : parseNumeric str with
    | none =>
      rw [hp] at h'
      simp at h'
    | some n' =>
      rw [hp] at h'
      simp at h'
      rw [h']
  · intro df m c dt s hm hlik hpre hstr hs
    rw [lookupCol_applyDataTypes_entry df hm, hs]
    simp [entryResult, hlik, coerceBranch_int_none hpre hstr]

/-- Witness for C3 as amended, at the concrete frames `dfW3` (live
float64 branch, whitespace parses and "3x" coerces to missing) and
`dfW3i` (an Int8 entry whose column holds a string is left
unchanged). -/
theorem to_numeric_coercion_c3_witness :
    lookupCol (applyDataTypes dfW3 mW3) "score" =
      some ⟨(⟨[Val.vStr " 3 ", Val.vStr "3x", Val.vNull], DType.obj⟩ :
        Series).data.map toNumericVal, DType.float⟩ ∧
    (toNumericVal (Val.vStr "3x") = Val.vNull ∧ Val.vNull ≠ Val.vInt 0) ∧
    parseNumeric " 3 " = some 3 ∧
    lookupCol (applyDataTypes dfW3i mW3i) "score" =
      some ⟨[Val.vStr "3x"], DType.obj⟩ :=
  ⟨to_numeric_coercion_c3.1 dfW3 mW3 "score"
     ⟨[Val.vStr " 3 ", Val.vStr "3x", Val.vNull], DType.obj⟩
     (by decide) (by decide) (by decide),
   to_numeric_coercion_c3.2.1 "3x" (by decide),
   to_numeric_coercion_c3.2.2.1 " 3 " 3 (by decide),
   to_numeric_coercion_c3.2.2.2 dfW3i mW3i "score" "Int8"
     ⟨[Val.vStr "3x"], DType.obj⟩ (by decide) (by decide) (by decide)
     ⟨"3x", by decide⟩ (by decide)⟩

/-! ### Claim C6: the Masters subgroup filter -/

theorem lookupCol_mem {df : DF} {c : String} {s : Series}
    (h : lookupCol df c = some s) : (c, s) ∈ df := by
  induction df with
  | nil => cases h
  | cons q rest ih =>
    obtain ⟨n, s0⟩ := q
    by_cases hn : n = c
    · subst hn
      have h' : s0 = s := by simpa [lookupCol] using h
      subst h'
      exact List.mem_cons.mpr (Or.inl rfl)
    · simp only [lookupCol, if_neg hn] at h
      exact List.mem_cons.mpr (Or.inr (ih h))

theorem applyMask_map_pred (p : Val → Bool) (l : List Val) :
    applyMask (l.map p) l = l.filter p := by
  induction l with
  | nil => rfl
  | cons v vs ih =>
    cases hp : p v
    · simp [List.map_cons, hp, applyMask, List.filter_cons, ih]
    · simp [List.map_cons, hp, applyMask, List.filter_cons, ih]

theorem applyMask_all_true : ∀ (ms : List Bool) (l : List Val),
    (∀ b ∈ ms, b = true) → ms.length = l.length → applyMask ms l = l := by
  intro ms
  induction ms with
  | nil =>
    intro l _ hlen
    cases l with
    | nil => rfl
    | cons v vs => simp at hlen
  | cons b bs ih =>
    intro l hall hlen
    cases l with
    | nil => simp at hlen
    | cons v vs =>
      have hb : b = true := hall b (by simp)
      subst hb
      simp only [applyMask]
      rw [ih vs (fun b hb => hall b (by simp [hb])) (by simpa using hlen)]

theorem applyMask_length_eq : ∀ (ms : List Bool) (l₁ l₂ : List Val),
    ms.length = l₁.length → ms.length = l₂.length →
    (applyMask ms l₁).length = (applyMask ms l₂).length := by
  intro ms
  induction ms with
  | nil =>
    intro l₁ l₂ h1 h2
    cases l₁ with
    | nil =>
      cases l₂ with
      | nil => rfl
      | cons v vs => simp at h2
    | cons v vs => simp at h1
  | cons b bs ih =>
    intro l₁ l₂ h1 h2
    cases l₁ with
    | nil => simp at h1
    | cons v₁ vs₁ =>
      cases l₂ with
      | nil => simp at h2
      | cons v₂ vs₂ =>
        have h1' : bs.length = vs₁.length := by simpa using h1
        have h2' : bs.length = vs₂.length := by simpa using h2
        cases b
        · simp only [applyMask]
          exact ih vs₁ vs₂ h1' h2'
        · simp only [applyMask, List.length_cons]
          rw [ih vs₁ vs₂ h1' h2']

theorem lookupCol_filterByMask (df : DF) (ms : List Bool) (c : String) :
    lookupCol (filterByMask df ms) c =
      (lookupCol df c).map
        (fun s => ⟨applyMask ms s.data, s.dtype⟩) := by
  induction df with
  | nil => rfl
  | cons q rest ih =>
    obtain ⟨n, s0⟩ := q
    by_cases hn : n = c
    · simp [filterByMask, List.map_cons, lookupCol, hn]
    · simp only [filterByMask, List.map_cons, lookupCol, if_neg hn] at ih ⊢
      exact ih

theorem colNames_filterByMask (df : DF) (ms : List Bool) :
    colNames (filterByMask df ms) = colNames df := by
  unfold colNames filterByMask
  rw [List.map_map]
  exact List.map_congr_left (fun q _ => rfl)

theorem isinVal_ne_null {allow : List String} {v : Val}
    (h : isinVal allow v = true) : v ≠ Val.vNull := by
  intro hv
  subst hv
  unfold isinVal at h
  rw [List.any_eq_true] at h
  obtain ⟨a, _, ha⟩ := h
  simp at ha

/-- C6.  The subgroup filter is idempotent and non-mutating: for a
rectangular frame, filtering the filtered frame again with the same
allow-list returns it row-identically; the column set is preserved; the
rows kept have a grouping value in the allow-list (so rows with a
missing value are excluded).  Mutation-freedom and the `.copy()`
independence are rendered by value semantics: the source frame value is
untouched by construction. -/
theorem subgroup_filter_c6 (df : DF) (n : Nat) (col : String)
    (allow : List String) (dfF : DF) (hrect : Rect df n)
    (hf : subgroupFilter df col allow = some dfF) :
    subgroupFilter dfF col allow = some dfF ∧
    colNames dfF = colNames df ∧
    (∀ sF, lookupCol dfF col = some sF →
      ∀ v ∈ sF.data, isinVal allow v = true ∧ v ≠ Val.vNull) := by
  unfold subgroupFilter at hf
  cases hage : lookupCol df col with
  | none => rw [hage] at hf; cases hf
  | some s =>
    rw [hage] at hf
    have hf' : filterByMask df (s.data.map (isinVal allow)) = dfF := by
      simpa using hf
    set p : Val → Bool := isinVal allow with hpdef
    set ms : List Bool := s.data.map p with hms
    have hslen : s.data.length = n := hrect (col, s) (lookupCol_mem hage)
    have hmslen : ms.length = s.data.length := by
      rw [hms]
      exact List.length_map _ _
    have hfil : applyMask ms s.data = s.data.filter p := by
      rw [hms]
      exact applyMask_map_pred p s.data
    have hlookF : lookupCol dfF col =
        some ⟨applyMask ms s.data, s.dtype⟩ := by
      rw [← hf', lookupCol_filterByMask, hage]
      rfl
    refine ⟨?_, ?_, ?_⟩
    · unfold subgroupFilter
      rw [hlookF]
      show some (filterByMask dfF ((applyMask ms s.data).map p)) = some dfF
      congr 1
      rw [← hf']
      unfold filterByMask
      rw [List.map_map]
      refine List.map_congr_left ?_
      intro q hq
      have hqlen : q.2.data.length = n := hrect q hq
      have hlen1 : (applyMask ms q.2.data).length =
          (applyMask ms s.data).length :=
        applyMask_length_eq ms q.2.data s.data
          (by rw [hmslen, hslen, hqlen]) hmslen
      have hall2 : ∀ b ∈ (applyMask ms s.data).map p, b = true := by
        rw [hfil]
        intro b hb
        rcases List.mem_map.mp hb with ⟨v, hv, hbv⟩
        rw [← hbv]
        exact (List.mem_filter.mp hv).2
      have hlen2 : ((applyMask ms s.data).map p).length =
          (applyMask ms q.2.data).length := by
        rw [List.length_map, hlen1]
      have hstable := applyMask_all_true ((applyMask ms s.data).map p)
        (applyMask ms q.2.data) hall2 hlen2
      simp [Function.comp, hstable]
    · rw [← hf']
      exact colNames_filterByMask df ms
    · intro sF hsF
      rw [hlookF] at hsF
      cases hsF
      intro v hv
      have hv' : v ∈ applyMask ms s.data := hv
      rw [hfil] at hv'
      have hpv := (List.mem_filter.mp hv').2
      exact ⟨hpv, isinVal_ne_null hpv⟩

/-- A rectangular frame with a Masters row, a missing age, an
out-of-list age, and a second Masters row. -/
def dfW6 : DF :=
  [("age_category", ⟨[Val.vStr "27-40", Val.vNull, Val.vStr "Under 27",
      Val.vStr "61+"], DType.obj⟩),
   ("club", ⟨[Val.vStr "A", Val.vStr "B", Val.vStr "C", Val.vStr "D"],
      DType.obj⟩)]

/-- The Masters subset of `dfW6`: rows 0 and 3. -/
def dfW6F : DF :=
  [("age_category", ⟨[Val.vStr "27-40", Val.vStr "61+"], DType.obj⟩),
   ("club", ⟨[Val.vStr "A", Val.vStr "D"], DType.obj⟩)]

/-- Witness for C6 at a concrete frame: `dfW6` filters to `dfW6F`, and
the theorem's conclusions hold there. -/
theorem subgroup_filter_c6_witness :
    subgroupFilter dfW6F "age_category" mastersAgeCategories = some dfW6F ∧
    colNames dfW6F = colNames dfW6 ∧
    (∀ sF, lookupCol dfW6F "age_category" = some sF →
      ∀ v ∈ sF.data, isinVal mastersAgeCategories v = true ∧
        v ≠ Val.vNull) :=
  subgroup_filter_c6 dfW6 4 "age_category" mastersAgeCategories dfW6F
    (by decide) (by decide)

/-! ### Lemmas about `value_counts`, sorting and category sets -/

theorem mem_insertDesc (x y : Val × Nat) : ∀ l : List (Val × Nat),
    (y ∈ insertDesc x l ↔ y = x ∨ y ∈ l) := by
  intro l
  induction l with
  | nil => simp [insertDesc]
  | cons z zs ih =>
    unfold insertDesc
    by_cases h : x.2 ≤ z.2
    · rw [if_pos h]
      constructor
      · intro hy
        rcases List.mem_cons.mp hy with hy | hy
        · exact Or.inr (List.mem_cons.mpr (Or.inl hy))
        · rcases ih.mp hy with hy | hy
          · exact Or.inl hy
          · exact Or.inr (List.mem_cons.mpr (Or.inr hy))
      · intro hy
        rcases hy with hy | hy
        · exact List.mem_cons.mpr (Or.inr (ih.mpr (Or.inl hy)))
        · rcases List.mem_cons.mp hy with hy | hy
          · exact List.mem_cons.mpr (Or.inl hy)
          · exact List.mem_cons.mpr (Or.inr (ih.mpr (Or.inr hy)))
    · rw [if_neg h]
      simp [List.mem_cons]

theorem mem_sortDesc (y : Val × Nat) : ∀ l : List (Val × Nat),
    (y ∈ sortDesc l ↔ y ∈ l) := by
  intro l
  induction l with
  | nil => simp [sortDesc]
  | cons z zs ih =>
    show y ∈ insertDesc z (sortDesc zs) ↔ y ∈ z :: zs
    rw [mem_insertDesc, ih]
    simp [List.mem_cons]

theorem pairwise_insertDesc (x : Val × Nat) (l : List (Val × Nat))
    (h : l.Pairwise (fun a b => b.2 ≤ a.2)) :
    (insertDesc x l).Pairwise (fun a b => b.2 ≤ a.2) := by
  induction l with
  | nil => simp [insertDesc]
  | cons y ys ih =>
    rw [List.pairwise_cons] at h
    obtain ⟨hy, hys⟩ := h
    unfold insertDesc
    by_cases hxy : x.2 ≤ y.2
    · rw [if_pos hxy, List.pairwise_cons]
      refine ⟨?_, ih hys⟩
      intro z hz
      rcases (mem_insertDesc x z ys).mp hz with hz | hz
      · rw [hz]
        exact hxy
      · exact hy z hz
    · rw [if_neg hxy]
      have hyx : y.2 ≤ x.2 := Nat.le_of_lt (Nat.lt_of_not_le hxy)
      rw [List.pairwise_cons]
      refine ⟨?_, List.pairwise_cons.mpr ⟨hy, hys⟩⟩
      intro z hz
      rcases List.mem_cons.mp hz with hz | hz
      · rw [hz]
        exact hyx
      · exact (hy z hz).trans hyx

theorem pairwise_sortDesc : ∀ l : List (Val × Nat),
    (sortDesc l).Pairwise (fun a b => b.2 ≤ a.2) := by
  intro l
  induction l with
  | nil => simp [sortDesc]
  | cons z zs ih =>
    show (insertDesc z (sortDesc zs)).Pairwise (fun a b => b.2 ≤ a.2)
    exact pairwise_insertDesc z (sortDesc zs) ih

theorem snd_of_mem_vcPairs (s : Series) (p : Val × Nat)
    (hp : p ∈ valueCountsPairs s) : p.2 = countVal s.data p.1 := by
  unfold valueCountsPairs at hp
  split at hp
  all_goals
    rw [mem_sortDesc] at hp
    rcases List.mem_map.mp hp with ⟨v, hv, hvp⟩
    rw [← hvp]

theorem mem_dedupAux (v : Val) : ∀ (l seen : List Val),
    (v ∈ dedupAux seen l ↔ (v ∈ l ∧ v ≠ Val.vNull ∧ v ∉ seen)) := by
  intro l
  induction l with
  | nil =>
    intro seen
    simp [dedupAux]
  | cons w ws ih =>
    intro seen
    by_cases hw : w = Val.vNull ∨ w ∈ seen
    · rw [show dedupAux seen (w :: ws) = dedupAux seen ws from by
        simp only [dedupAux]
        rw [if_pos hw]]
      rw [ih seen]
      constructor
      · rintro ⟨h1, h2, h3⟩
        exact ⟨List.mem_cons.mpr (Or.inr h1), h2, h3⟩
      · rintro ⟨h1, h2, h3⟩
        rcases List.mem_cons.mp h1 with hvw | hvw
        · subst hvw
          rcases hw with hw | hw
          · exact absurd hw h2
          · exact absurd hw h3
        · exact ⟨hvw, h2, h3⟩
    · rw [show dedupAux seen (w :: ws) = w :: dedupAux (w :: seen) ws from by
        simp only [dedupAux]
        rw [if_neg hw]]
      push_neg at hw
      constructor
      · intro h1
        rcases List.mem_cons.mp h1 with hvw | hvw
        · subst hvw
          exact ⟨List.mem_cons.mpr (Or.inl rfl), hw.1, hw.2⟩
        · obtain ⟨h2, h3, h4⟩ := (ih (w :: seen)).mp hvw
          exact ⟨List.mem_cons.mpr (Or.inr h2), h3,
            fun hc => h4 (List.mem_cons.mpr (Or.inr hc))⟩
      · rintro ⟨h1, h2, h3⟩
        by_cases hvw : v = w
        · exact List.mem_cons.mpr (Or.inl hvw)
        · rcases List.mem_cons.mp h1 with h1' | h1'
          · exact absurd h1' hvw
          · refine List.mem_cons.mpr
              (Or.inr ((ih (w :: seen)).mpr ⟨h1', h2, ?_⟩))
            intro hc
            rcases List.mem_cons.mp hc with hc' | hc'
            · exact hvw hc'
            · exact h3 hc'

theorem mem_dedupNonNull (v : Val) (l : List Val) :
    v ∈ dedupNonNull l ↔ v ∈ l ∧ v ≠ Val.vNull := by
  unfold dedupNonNull
  rw [mem_dedupAux v l []]
  simp

theorem mem_fst_sortDesc_map (d : List Val) (xs : List Val) (v : Val) :
    v ∈ (sortDesc (xs.map (fun w => (w, countVal d w)))).map Prod.fst ↔
      v ∈ xs := by
  rw [List.mem_map]
  constructor
  · rintro ⟨p, hp, hpv⟩
    rw [mem_sortDesc] at hp
    rcases List.mem_map.mp hp with ⟨w, hw, hwp⟩
    rw [← hpv, ← hwp]
    exact hw
  · intro hv
    exact ⟨(v, countVal d v),
      (mem_sortDesc _ _).mpr (List.mem_map.mpr ⟨v, hv, rfl⟩), rfl⟩

theorem mem_vcIndex_noncat (s : Series)
    (hnc : ∀ cats b, s.dtype ≠ DType.cat cats b) (v : Val) :
    v ∈ vcIndex s ↔ v ∈ s.data ∧ v ≠ Val.vNull := by
  unfold vcIndex valueCountsPairs
  cases hdt : s.dtype with
  | cat cats b => exact absurd hdt (hnc cats b)
  | obj =>
    rw [mem_fst_sortDesc_map]
    exact mem_dedupNonNull v s.data
  | intN w =>
    rw [mem_fst_sortDesc_map]
    exact mem_dedupNonNull v s.data
  | npint w =>
    rw [mem_fst_sortDesc_map]
    exact mem_dedupNonNull v s.data
  | float =>
    rw [mem_fst_sortDesc_map]
    exact mem_dedupNonNull v s.data
  | boolean =>
    rw [mem_fst_sortDesc_map]
    exact mem_dedupNonNull v s.data

theorem mem_vcIndex_cat (s : Series) (cats : List Val) (b : Bool)
    (hdt : s.dtype = DType.cat cats b) (v : Val) :
    v ∈ vcIndex s ↔ v ∈ cats := by
  unfold vcIndex valueCountsPairs
  rw [hdt]
  exact mem_fst_sortDesc_map s.data cats v

theorem mem_unionList (v : Val) (a b : List Val) :
    v ∈ unionList a b ↔ v ∈ a ∨ v ∈ b := by
  unfold unionList
  rw [List.mem_append]
  constructor
  · rintro (h | h)
    · exact Or.inl h
    · exact Or.inr (List.mem_filter.mp h).1
  · intro h
    by_cases ha : v ∈ a
    · exact Or.inl ha
    · rcases h with h | h
      · exact absurd h ha
      · refine Or.inr (List.mem_filter.mpr ⟨h, ?_⟩)
        simp [ha]

theorem reindexHeight_of_not_mem (s : Series) (v : Val)
    (h : v ∉ s.data) : reindexHeight s v = 0 := by
  unfold reindexHeight
  cases hf : (valueCountsPairs s).find? (fun p => p.1 = v) with
  | none => rfl
  | some p =>
    have hp1 : p.1 = v := by simpa using List.find?_some hf
    have hpmem := List.mem_of_find?_eq_some hf
    have hcnt := snd_of_mem_vcPairs s p hpmem
    rw [hp1] at hcnt
    show p.2 = 0
    rw [hcnt]
    unfold countVal
    exact List.count_eq_zero.mpr h

theorem pairwise_vcIndex (s : Series) :
    (vcIndex s).Pairwise
      (fun a b => countVal s.data b ≤ countVal s.data a) := by
  have hP : (valueCountsPairs s).Pairwise (fun p q => q.2 ≤ p.2) := by
    unfold valueCountsPairs
    split
    · exact pairwise_sortDesc _
    · exact pairwise_sortDesc _
  have hP' : (valueCountsPairs s).Pairwise
      (fun p q => countVal s.data q.1 ≤ countVal s.data p.1) := by
    refine List.Pairwise.imp_of_mem ?_ hP
    intro p q hp hq hle
    rw [← snd_of_mem_vcPairs s p hp, ← snd_of_mem_vcPairs s q hq]
    exact hle
  unfold vcIndex
  exact List.pairwise_map.mpr hP'

/-! ### Claim C5: bar ordering of the single-column chart -/

/-- C5 as amended.  In the chart renderer of `src/visualization.py` the
claim holds: an ordered-categorical column is drawn in its declared
category order — all five categories appear, zero-count ones included —
and any other column is drawn in count-descending order over its
distinct non-missing values.  The older duplicate `create_bar_chart` in
`data_analysis.py`, also cited by the claim, has no ordered-categorical
branch: its bar order is count-descending for every dtype, so the
claim's ordered-categorical case fails there (see the
counterexample). -/
theorem bar_order_c5 :
    (∀ (s : Series) (cats : List Val), s.dtype = DType.cat cats true →
      barOrderViz s = cats ∧ ∀ c ∈ cats, c ∈ barOrderViz s) ∧
    (∀ s : Series, (∀ cats b, s.dtype ≠ DType.cat cats b) →
      ((barOrderViz s).Pairwise
        (fun a b => countVal s.data b ≤ countVal s.data a) ∧
       ∀ v, v ∈ barOrderViz s ↔ v ∈ s.data ∧ v ≠ Val.vNull)) ∧
    (∀ s : Series, (barOrderDA s).Pairwise
      (fun a b => countVal s.data b ≤ countVal s.data a)) := by
  have hbv : ∀ s : Series, (∀ cats b, s.dtype ≠ DType.cat cats b) →
      barOrderViz s = vcIndex s := by
    intro s hnc
    unfold barOrderViz
    cases hdt : s.dtype with
    | cat cats b => exact absurd hdt (hnc cats b)
    | obj => rfl
    | intN w => rfl
    | npint w => rfl
    | float => rfl
    | boolean => rfl
  refine ⟨?_, ?_, ?_⟩
  · intro s cats h
    have horder : barOrderViz s = cats := by
      unfold barOrderViz
      rw [h]
    exact ⟨horder, fun c hc => horder ▸ hc⟩
  · intro s hnc
    rw [hbv s hnc]
    exact ⟨pairwise_vcIndex s, fun v => mem_vcIndex_noncat s hnc v⟩
  · intro s
    exact pairwise_vcIndex s

/-- An ordered-Likert column whose counts are 3 x Agree, 2 x Disagree,
1 x Strongly Disagree, 0 x Neutral, 0 x Strongly Agree. -/
def sW5 : Series :=
  ⟨[Val.vStr "Agree", Val.vStr "Agree", Val.vStr "Agree",
    Val.vStr "Disagree", Val.vStr "Disagree", Val.vStr "Strongly Disagree"],
   DType.cat catCategories true⟩

/-- Counterexample to C5 as stated: the entry script's own
`create_bar_chart` (`data_analysis.py` line 144) draws `sW5` — an
ordered-categorical column — with "Agree" first, not in the fixed
scale order whose first bar is "Strongly Disagree". -/
theorem da_bar_order_c5_cex :
    sW5.dtype = DType.cat catCategories true ∧
    (barOrderDA sW5).head? = some (Val.vStr "Agree") ∧
    barOrderDA sW5 ≠ catCategories := by
  exact ⟨by decide, by decide, by decide⟩

/-- A plain (object-dtype) column for the frequency-ordered case. -/
def sW5b : Series :=
  ⟨[Val.vStr "No", Val.vStr "Yes", Val.vStr "Yes"], DType.obj⟩

/-- Witness for C5 as amended, at concrete columns. -/
theorem bar_order_c5_witness :
    (barOrderViz sW5 = catCategories ∧
      ∀ c ∈ catCategories, c ∈ barOrderViz sW5) ∧
    ((barOrderViz sW5b).Pairwise
      (fun a b => countVal sW5b.data b ≤ countVal sW5b.data a) ∧
     ∀ v, v ∈ barOrderViz sW5b ↔ v ∈ sW5b.data ∧ v ≠ Val.vNull) ∧
    (barOrderDA sW5).Pairwise
      (fun a b => countVal sW5.data b ≤ countVal sW5.data a) :=
  ⟨bar_order_c5.1 sW5 catCategories rfl,
   bar_order_c5.2.1 sW5b (fun _ _ h => DType.noConfusion h),
   bar_order_c5.2.2 sW5⟩

/-! ### Claim C7: category set of the comparison chart -/

/-- C7 as amended.  For two columns of non-categorical dtype the
rendered category set is exactly the union of their distinct
non-missing values; and for any column whatsoever, a category that does
not occur among its cells gets reindexed to a zero-height bar — in
particular a category present in only one column is zero in the other.
(For a categorical column, `value_counts` instead contributes every
declared category, including zero-count ones; see the
counterexample.) -/
theorem comparison_categories_c7 :
    (∀ s1 s2 : Series, (∀ cats b, s1.dtype ≠ DType.cat cats b) →
      (∀ cats b, s2.dtype ≠ DType.cat cats b) →
      ∀ v, v ∈ comparisonAllCats s1 s2 ↔
        ((v ∈ s1.data ∨ v ∈ s2.data) ∧ v ≠ Val.vNull)) ∧
    (∀ (s : Series) (v : Val), v ∉ s.data → reindexHeight s v = 0) := by
  constructor
  · intro s1 s2 h1 h2 v
    unfold comparisonAllCats
    rw [mem_unionList, mem_vcIndex_noncat s1 h1, mem_vcIndex_noncat s2 h2]
    tauto
  · exact reindexHeight_of_not_mem

/-- An ordered-Likert column where only "Agree" occurs. -/
def sW7a : Series := ⟨[Val.vStr "Agree"], DType.cat catCategories true⟩

/-- A plain column with the single value "Yes". -/
def sW7b : Series := ⟨[Val.vStr "Yes"], DType.obj⟩

/-- Counterexample to C7 as stated: comparing a Likert categorical
column with a plain one renders the never-occurring category
"Strongly Disagree", so the rendered set exceeds the union of the two
columns' distinct non-missing values. -/
theorem comparison_unused_category_c7_cex :
    Val.vStr "Strongly Disagree" ∈ comparisonAllCats sW7a sW7b ∧
    Val.vStr "Strongly Disagree" ∉ sW7a.data ∧
    Val.vStr "Strongly Disagree" ∉ sW7b.data := by
  exact ⟨by decide, by decide, by decide⟩

/-- Plain columns for the amended C7 witness. -/
def sW7c : Series := ⟨[Val.vStr "x", Val.vNull], DType.obj⟩

/-- Second plain column for the amended C7 witness. -/
def sW7d : Series := ⟨[Val.vStr "y"], DType.obj⟩

/-- Witness for C7 as amended: "y" occurs only in the second column, is
rendered, and has a zero-height bar for the first column. -/
theorem comparison_categories_c7_witness :
    (Val.vStr "y" ∈ comparisonAllCats sW7c sW7d ↔
      ((Val.vStr "y" ∈ sW7c.data ∨ Val.vStr "y" ∈ sW7d.data) ∧
        Val.vStr "y" ≠ Val.vNull)) ∧
    reindexHeight sW7c (Val.vStr "y") = 0 :=
  ⟨comparison_categories_c7.1 sW7c sW7d (fun _ _ h => DType.noConfusion h)
      (fun _ _ h => DType.noConfusion h) (Val.vStr "y"),
   comparison_categories_c7.2 sW7c (Val.vStr "y") (by decide)⟩

/-! ### Claim C2: the missing-column guard -/

/-- C2 as amended.  The single-column and two-column chart calls are
no-ops on a missing column: they print which column is missing, open no
figure, create no file, and return without raising.  The boolean-reason
summary chart has no such guard: with any required column absent it
raises (`KeyError` from the frame indexing, before any figure is
opened) and creates no file. -/
theorem missing_column_guard_c2 :
    (∀ b (df : DF) col path nm, lookupCol df col = none →
      createBarChart b df col path nm =
        ⟨[missingColMsg col], false, false, none, false⟩) ∧
    (∀ b (df : DF) c1 c2 path nm,
      lookupCol df c1 = none ∨ lookupCol df c2 = none →
      createComparisonChart b df c1 c2 path nm =
        ⟨[missingColsMsg c1 c2], false, false, none, false⟩) ∧
    (∀ b (df : DF) rcols path nm,
      (∃ rc ∈ rcols, lookupCol df rc.1 = none) →
      (createReasonsSummaryChart b df rcols path nm).raised = true ∧
      (createReasonsSummaryChart b df rcols path nm).saved = none ∧
      (createReasonsSummaryChart b df rcols path nm).figOpened = false) := by
  refine ⟨?_, ?_, ?_⟩
  · intro b df col path nm h
    unfold createBarChart
    rw [h]
  · intro b df c1 c2 path nm h
    unfold createComparisonChart
    rcases h with h | h
    · rw [h]
    · rw [h]
      cases hc1 : lookupCol df c1 <;> rfl
  · intro b df rcols path nm h
    have hany : rcols.any (fun rc => (lookupCol df rc.1).isNone) = true := by
      rw [List.any_eq_true]
      obtain ⟨rc, hrc, hnone⟩ := h
      exact ⟨rc, hrc, by simp [hnone]⟩
    unfold createReasonsSummaryChart
    rw [hany]
    simp

/-- A one-column frame for the guard counterexample and witnesses. -/
def dfW2 : DF := [("a", ⟨[Val.vInt 1], DType.obj⟩)]

/-- Counterexample to C2 as stated: a reasons-summary call naming an
absent column raises instead of returning as a no-op. -/
theorem reasons_chart_raises_c2_cex :
    (createReasonsSummaryChart false dfW2 [("missing_reason", "Cost")]
      "charts" none).raised = true ∧
    (createReasonsSummaryChart false dfW2 [("missing_reason", "Cost")]
      "charts" none).saved = none := by
  exact ⟨by decide, by decide⟩

/-- Witness for C2 as amended, at the concrete frame `dfW2`. -/
theorem missing_column_guard_c2_witness :
    createBarChart false dfW2 "zzz" "charts" none =
      ⟨[missingColMsg "zzz"], false, false, none, false⟩ ∧
    createComparisonChart false dfW2 "a" "zzz" "charts" none =
      ⟨[missingColsMsg "a" "zzz"], false, false, none, false⟩ ∧
    (createReasonsSummaryChart false dfW2 [("zzz", "Cost")] "charts"
      none).raised = true :=
  ⟨missing_column_guard_c2.1 false dfW2 "zzz" "charts" none (by decide),
   missing_column_guard_c2.2.1 false dfW2 "a" "zzz" "charts" none
     (Or.inr (by decide)),
   (missing_column_guard_c2.2.2 false dfW2 [("zzz", "Cost")] "charts" none
     ⟨("zzz", "Cost"), by decide, by decide⟩).1⟩

/-! ### Claim C4: figure lifetime -/

/-- C4 as amended.  Every chart call that returns without raising has
closed exactly the figures it opened (`plt.close()` is the last step of
each chart function).  There is no try/finally, so this balance is lost
on raising runs: a failure after `plt.figure()` leaks the figure — see
the counterexample. -/
theorem figure_released_c4 :
    (∀ b (df : DF) col path nm,
      (createBarChart b df col path nm).raised = false →
      (createBarChart b df col path nm).figClosed =
        (createBarChart b df col path nm).figOpened) ∧
    (∀ b (df : DF) c1 c2 path nm,
      (createComparisonChart b df c1 c2 path nm).raised = false →
      (createComparisonChart b df c1 c2 path nm).figClosed =
        (createComparisonChart b df c1 c2 path nm).figOpened) ∧
    (∀ b (df : DF) rcols path nm,
      (createReasonsSummaryChart b df rcols path nm).raised = false →
      (createReasonsSummaryChart b df rcols path nm).figClosed =
        (createReasonsSummaryChart b df rcols path nm).figOpened) := by
  refine ⟨?_, ?_, ?_⟩
  · intro b df col path nm h
    unfold createBarChart at h ⊢
    cases hc : lookupCol df col
    · rfl
    · cases b
      · rfl
      · rw [hc] at h
        exact Bool.noConfusion h
  · intro b df c1 c2 path nm h
    unfold createComparisonChart at h ⊢
    cases hc1 : lookupCol df c1 <;> cases hc2 : lookupCol df c2
    · rfl
    · rfl
    · rfl
    · cases b
      · rfl
      · rw [hc1, hc2] at h
        exact Bool.noConfusion h
  · intro b df rcols path nm h
    unfold createReasonsSummaryChart at h ⊢
    cases hany : rcols.any (fun rc => (lookupCol df rc.1).isNone)
    · cases b
      · rfl
      · rw [hany] at h
        exact Bool.noConfusion h
    · rw [hany] at h
      exact Bool.noConfusion h

/-- A frame whose column "q" is present, so a bar-chart call on it
opens a figure. -/
def dfW4 : DF := [("q", ⟨[Val.vStr "Yes"], DType.obj⟩)]

/-- Counterexample to C4 as stated: when `plt.savefig` raises after the
figure was created, the call exits raising with the figure still open —
nothing closes it. -/
theorem figure_leak_c4_cex :
    (createBarChart true dfW4 "q" "charts" none).figOpened = true ∧
    (createBarChart true dfW4 "q" "charts" none).figClosed = false ∧
    (createBarChart true dfW4 "q" "charts" none).raised = true := by
  exact ⟨by decide, by decide, by decide⟩

/-- Witness for C4 as amended: a non-raising run has figClosed equal to
figOpened. -/
theorem figure_released_c4_witness :
    (createBarChart false dfW4 "q" "charts" none).raised = false ∧
    (createBarChart false dfW4 "q" "charts" none).figClosed =
      (createBarChart false dfW4 "q" "charts" none).figOpened :=
  ⟨by decide,
   figure_released_c4.1 false dfW4 "q" "charts" none (by decide)⟩

/-! ### Claim C8: the brand palette resolver -/

theorem collectColors_eq (lines : List (List Char)) :
    collectColors lines =
      (lines.filter (fun l => containsSub hexMarker l)).filterMap
        findFirstHex := by
  induction lines with
  | nil => rfl
  | cons l ls ih =>
    by_cases hc : containsSub hexMarker l
    · cases hf : findFirstHex l with
      | none =>
        simp [collectColors, hc, hf, List.filter_cons,
          List.filterMap_cons, ih]
      | some c =>
        simp [collectColors, hc, hf, List.filter_cons,
          List.filterMap_cons, ih]
    · simp [collectColors, hc, List.filter_cons, ih]

/-- C8.  For every styling document the resolver returns at most the
first five hex codes found — first per-line 3- or 6-digit regex match
on the lines containing the marker, in document order (the returned
palette equals the declaratively specified one and has length at most
five, with no message printed); and for an absent document it prints
the warning and returns no palette, without raising. -/
theorem get_brand_colors_c8 :
    (∀ (path : String) (lines : List (List Char)),
      (getBrandColors path (some lines)).2.getD [] = brandPaletteSpec lines ∧
      ((getBrandColors path (some lines)).2.getD []).length ≤ 5 ∧
      (getBrandColors path (some lines)).1 = []) ∧
    (∀ path : String, getBrandColors path none = ([brandWarning path], none)) := by
  refine ⟨?_, fun path => rfl⟩
  intro path lines
  have hform : getBrandColors path (some lines) =
      ([], if (collectColors lines).isEmpty then none
           else some ((collectColors lines).take 5)) := rfl
  rw [hform]
  unfold brandPaletteSpec
  rw [← collectColors_eq]
  cases hcol : collectColors lines with
  | nil => simp
  | cons c cs => simp [List.length_take_le]

end Survey
